import Mathlib

/-!
Verification development for the catmart-demo Go backend
(`src/backend/go-api`).  The order-transaction and catalog-query core is
shallowly embedded in Lean:

* the Postgres store is a record of three tables (`DB.products`,
  `DB.orders`, `DB.orderItems`); a `QueryRow ... Scan` against a key is
  `List.find?`, an `INSERT` is an append, `ORDER BY created_at DESC` is
  `List.mergeSort` on the timestamp, `LIMIT`/`OFFSET` are `take`/`drop`;
* `uuid.New()` is a counter (`St.gen`) threaded through the call, and
  `time.Now()` is an explicit `now : Nat` argument;
* Go `float64` money fields are modelled as exact rationals `ℚ` (the value
  flow of the code is unchanged by this; the representation question itself
  is treated separately, at the level of the Go declarations);
* a transaction that returns an error before `Commit` leaves the store
  unchanged (`tx.Rollback`), which `createOrderTx` makes explicit;
* execution is sequential: one call runs to completion against one store
  snapshot, which is the semantics of a single transaction with no
  concurrent writer.
-/

namespace CatMart

/-- `domain.Product` (src/backend/go-api/internal/domain/product.go). -/
structure Product where
  id : Nat
  title : String
  price : ℚ
  category : String
  image : String
  description : String
  stockQuantity : Int
  createdAt : Nat
  updatedAt : Nat
  deriving DecidableEq

/-- `domain.OrderItem`: the `order_items` row, plus the optional joined
`Product` that `getOrderItems` fills in (nil/`none` as stored). -/
structure OrderItem where
  id : Nat
  orderId : Nat
  productId : Nat
  quantity : Int
  price : ℚ
  product : Option Product
  createdAt : Nat
  deriving DecidableEq

/-- `domain.Order`: the `orders` row; `items` is the response-only field
(empty for a stored row, populated by `GetUserOrders`). -/
structure Order where
  id : Nat
  userId : Nat
  totalAmount : ℚ
  status : String
  items : List OrderItem
  createdAt : Nat
  updatedAt : Nat
  deriving DecidableEq

/-- `domain.OrderItemRequest` (`{productId, qty}`). -/
structure OrderItemRequest where
  productId : Nat
  qty : Int
  deriving DecidableEq

/-- `domain.CreateOrderRequest`. -/
structure CreateOrderRequest where
  items : List OrderItemRequest
  deriving DecidableEq

/-- `domain.CreateOrderResponse` (`{orderId, total}`). -/
structure CreateOrderResponse where
  orderId : Nat
  total : ℚ
  deriving DecidableEq

/-- The relational store: tables `products`, `orders`, `order_items`. -/
structure DB where
  products : List Product
  orders : List Order
  orderItems : List OrderItem
  deriving DecidableEq

/-- Store plus the uuid source: `gen` is the next fresh identifier, standing
in for `uuid.New()`. -/
structure St where
  db : DB
  gen : Nat
  deriving DecidableEq

/-- The error `CreateOrder` can raise with a reliable store: the only
failing statement is the price lookup `QueryRowContext(...).Scan`, whose
no-row failure is the `sql.ErrNoRows` sentinel, propagated raw by
`return nil, err`. -/
inductive CreateErr where
  | errNoRows
  deriving DecidableEq

/-- `SELECT price FROM products WHERE id = $1` followed by `Scan(&price)`:
the first row with the given id, if any. -/
def lookupPrice (db : DB) (pid : Nat) : Option ℚ :=
  (db.products.find? (fun p => p.id == pid)).map Product.price

/-- The price a successful lookup observes (`0` default is never used under
the hypotheses of the theorems below). -/
def priceAtD (db : DB) (pid : Nat) : ℚ :=
  (lookupPrice db pid).getD 0

/-- First loop of `OrderService.CreateOrder`: for each requested item fetch
the product price and accumulate `totalAmount += price * float64(item.Qty)`;
a failed `Scan` aborts with its error. -/
def calcTotal (db : DB) : List OrderItemRequest → ℚ → Except CreateErr ℚ
  | [], acc => .ok acc
  | it :: rest, acc =>
    match lookupPrice db it.productId with
    | none => .error .errNoRows
    | some price => calcTotal db rest (acc + price * (it.qty : ℚ))

/-- Second loop of `OrderService.CreateOrder`: for each requested item fetch
the product price again, draw a fresh `itemID` and insert the
`order_items` row.  Returns the inserted rows and the advanced uuid
counter. -/
def insertItems (db : DB) (orderID now : Nat) :
    List OrderItemRequest → Nat → Except CreateErr (List OrderItem × Nat)
  | [], gen => .ok ([], gen)
  | it :: rest, gen =>
    match lookupPrice db it.productId with
    | none => .error .errNoRows
    | some price =>
      match insertItems db orderID now rest (gen + 1) with
      | .error e => .error e
      | .ok (items, gen') =>
        .ok ({ id := gen, orderId := orderID, productId := it.productId,
               quantity := it.qty, price := price, product := none,
               createdAt := now } :: items, gen')

/-- `OrderService.CreateOrder`: open a transaction, draw `orderID`, compute
the total from per-item price lookups, insert the `orders` row
(`status = "pending"`, `created_at = updated_at = now`), insert one
`order_items` row per input pair, commit.  An error anywhere before commit
surfaces as `Except.error` with no new state (the deferred rollback). -/
def createOrder (st : St) (now userID : Nat) (req : CreateOrderRequest) :
    Except CreateErr (St × CreateOrderResponse) :=
  let orderID := st.gen
  match calcTotal st.db req.items 0 with
  | .error e => .error e
  | .ok totalAmount =>
    let order : Order :=
      { id := orderID, userId := userID, totalAmount := totalAmount,
        status := "pending", items := [], createdAt := now, updatedAt := now }
    match insertItems st.db orderID now req.items (st.gen + 1) with
    | .error e => .error e
    | .ok (newItems, gen') =>
      .ok ({ db := { products := st.db.products,
                     orders := st.db.orders ++ [order],
                     orderItems := st.db.orderItems ++ newItems },
             gen := gen' },
           { orderId := orderID, total := totalAmount })

/-- The transaction as the caller sees it: on success the committed store,
on error the unchanged store (`defer tx.Rollback()`). -/
def createOrderTx (st : St) (now userID : Nat) (req : CreateOrderRequest) :
    St × Except CreateErr CreateOrderResponse :=
  match createOrder st now userID req with
  | .ok (st', r) => (st', .ok r)
  | .error e => (st, .error e)

/-- The `Product` value `getOrderItems` assembles for one joined row: the
scanned columns are the live `p.title`, `p.category`, `p.image`,
`p.description`, then `product.ID = item.ProductID` and
`product.Price = item.Price` are overwritten from the order-item row; the
unscanned fields keep their Go zero values. -/
def joinedProduct (oi : OrderItem) (p : Product) : Product :=
  { id := oi.productId, title := p.title, price := oi.price,
    category := p.category, image := p.image, description := p.description,
    stockQuantity := 0, createdAt := 0, updatedAt := 0 }

/-- `OrderService.getOrderItems`: `order_items` rows of the order, inner
joined (`JOIN products p ON oi.product_id = p.id`) against the live
`products` table. -/
def getOrderItems (db : DB) (orderID : Nat) : List OrderItem :=
  (db.orderItems.filter (fun oi => oi.orderId == orderID)).filterMap
    (fun oi =>
      (db.products.find? (fun p => p.id == oi.productId)).map
        (fun p => { oi with product := some (joinedProduct oi p) }))

/-- `OrderService.GetUserOrders`: the user's `orders` rows,
`ORDER BY created_at DESC`, each with its items fetched by
`getOrderItems`. -/
def getUserOrders (db : DB) (userID : Nat) : List Order :=
  ((db.orders.filter (fun o => o.userId == userID)).mergeSort
      (fun a b => decide (b.createdAt ≤ a.createdAt))).map
    (fun o => { o with items := getOrderItems db o.id })

/-! ### The catalog query service (`ProductService`) -/

/-- `domain.ProductFilter`: query-string parameters `q`, `category`,
`limit`, `offset` (Go zero values stand for an absent parameter). -/
structure ProductFilter where
  query : String
  category : String
  limit : Int
  offset : Int
  deriving DecidableEq

/-- Case folding used by `ILIKE`, modelled as `Char.toLower`. -/
def lower (c : Char) : Char := c.toLower

/-- The suffixes of a character list, longest first (the list itself down
to `[]`). -/
def sufs : List Char → List (List Char)
  | [] => [[]]
  | c :: s => (c :: s) :: sufs s

/-- Postgres `LIKE`/`ILIKE` pattern matching on character lists, with the
case folding of `ILIKE`: `%` matches any sequence (the rest of the pattern
may resume at any suffix), `_` matches any single character, and the
default escape character `\` makes the next pattern character literal.  A
pattern ending in a bare `\` matches nothing (the engine rejects it). -/
def likeM : List Char → List Char → Bool
  | [], s => s.isEmpty
  | c :: p, s =>
    if c = '%' then
      (sufs s).any (fun t => likeM p t)
    else if c = '_' then
      match s with
      | [] => false
      | _ :: s' => likeM p s'
    else if c = '\\' then
      match p with
      | [] => false
      | c2 :: p' =>
        match s with
        | [] => false
        | d :: s' => (lower c2 == lower d) && likeM p' s'
    else
      match s with
      | [] => false
      | d :: s' => (lower c == lower d) && likeM p s'

/-- `s ILIKE pat`. -/
def ilike (s pat : String) : Bool := likeM pat.data s.data

/-- The row predicate of the `WHERE` clause `GetProducts` builds: when
`filter.Query` is nonempty, `(title ILIKE $1 OR description ILIKE $1)` with
the argument `"%" + filter.Query + "%"`; when `filter.Category` is
nonempty, `category = $n`; clauses joined by `AND`. -/
def matchesWhere (f : ProductFilter) (p : Product) : Bool :=
  (f.query == "" ||
    (ilike p.title ("%" ++ f.query ++ "%") ||
      ilike p.description ("%" ++ f.query ++ "%"))) &&
  (f.category == "" || p.category == f.category)

/-- `ProductService.GetProducts`: filter, `ORDER BY created_at DESC`, then
`LIMIT` only when `filter.Limit > 0` and `OFFSET` only when
`filter.Offset > 0` (SQL applies the offset before the limit). -/
def getProducts (db : DB) (f : ProductFilter) : List Product :=
  let rows := (db.products.filter (matchesWhere f)).mergeSort
    (fun a b => decide (b.createdAt ≤ a.createdAt))
  let rows1 := if f.offset > 0 then rows.drop f.offset.toNat else rows
  if f.limit > 0 then rows1.take f.limit.toNat else rows1

/-- Outcome of `QueryRowContext(...).Scan` in `GetProduct`: either the row,
or `sql.ErrNoRows`, or a store-layer failure (connection loss etc.),
selected by the `storeOk` oracle. -/
inductive ScanErr where
  | errNoRows
  | connFailure
  deriving DecidableEq

/-- The single-row product query: with a working store, the first row with
the given id or `errNoRows`; with a failing store, `connFailure`. -/
def queryProductRow (db : DB) (storeOk : Bool) (id : Nat) :
    Except ScanErr Product :=
  if storeOk then
    match db.products.find? (fun p => p.id == id) with
    | some p => .ok p
    | none => .error .errNoRows
  else
    .error .connFailure

/-- `ProductService.GetProduct`: any error from the scan — no-row and
store-layer failure alike — is replaced by
`errors.New("product not found")`. -/
def getProduct (db : DB) (storeOk : Bool) (id : Nat) :
    Except String Product :=
  match queryProductRow db storeOk id with
  | .ok p => .ok p
  | .error _ => .error "product not found"

/-! ### Case-insensitive literal substring containment (the spec's notion
of matching, stated independently of the SQL pattern language) -/

/-- `q` matches the beginning of `s`, character by character up to case. -/
def isPrefCI : List Char → List Char → Bool
  | [], _ => true
  | _ :: _, [] => false
  | c :: q, d :: s => (lower c == lower d) && isPrefCI q s

/-- `q` occurs contiguously somewhere in `s`, up to case: the claim's
"contains searchText case-insensitively (substring match)". -/
def containsCI (q : List Char) : List Char → Bool
  | [] => isPrefCI q []
  | d :: s => isPrefCI q (d :: s) || containsCI q s

/-- A pattern character with no special `ILIKE` meaning. -/
def plainChar (c : Char) : Prop := c ≠ '%' ∧ c ≠ '_' ∧ c ≠ '\\'

instance (c : Char) : Decidable (plainChar c) := by
  unfold plainChar; infer_instance

/-! ### Concrete stores and requests used to instantiate the theorems -/

/-- A food product priced 10. -/
def exProdA : Product :=
  { id := 1, title := "Salmon Treats", price := 10, category := "food",
    image := "img-a", description := "fishy snack", stockQuantity := 5,
    createdAt := 1, updatedAt := 1 }

/-- A toy product priced 5. -/
def exProdB : Product :=
  { id := 2, title := "Feather Wand", price := 5, category := "toys",
    image := "img-b", description := "wavy toy", stockQuantity := 4,
    createdAt := 2, updatedAt := 2 }

/-- A store holding the two products and nothing else. -/
def exDb : DB := { products := [exProdA, exProdB], orders := [], orderItems := [] }

/-- That store with the uuid counter at 100. -/
def exSt : St := { db := exDb, gen := 100 }

/-- Items [(product 1, qty 2), (product 2, qty 1)]. -/
def exReq : CreateOrderRequest := { items := [⟨1, 2⟩, ⟨2, 1⟩] }

/-- An item list naming product 99, which `exDb` does not hold. -/
def exReqBad : CreateOrderRequest := { items := [⟨99, 1⟩] }

/-- The order row `createOrder exSt 5 7 exReq` persists. -/
def exOrderRow : Order :=
  { id := 100, userId := 7, totalAmount := 25, status := "pending",
    items := [], createdAt := 5, updatedAt := 5 }

/-- The state after `createOrder exSt 5 7 exReq`: the order row, its two
item rows with the snapshotted prices, and the advanced counter. -/
def exStAfter : St :=
  { db := { products := [exProdA, exProdB],
            orders := [exOrderRow],
            orderItems :=
              [{ id := 101, orderId := 100, productId := 1, quantity := 2,
                 price := 10, product := none, createdAt := 5 },
               { id := 102, orderId := 100, productId := 2, quantity := 1,
                 price := 5, product := none, createdAt := 5 }] },
    gen := 103 }

/-- The response of `createOrder exSt 5 7 exReq`. -/
def exResp : CreateOrderResponse := { orderId := 100, total := 25 }

/-- A product whose title matches the pattern `a_b` but does not contain
the literal text `a_b`. -/
def exP6 : Product :=
  { id := 3, title := "aXb", price := 2, category := "toys", image := "i",
    description := "zz", stockQuantity := 1, createdAt := 9, updatedAt := 9 }

/-- A one-product store for the wildcard counterexample. -/
def exDb6 : DB := { products := [exP6], orders := [], orderItems := [] }

/-- A search whose text contains the `_` wildcard. -/
def exF6 : ProductFilter :=
  { query := "a_b", category := "", limit := 0, offset := 0 }

/-- A product whose title matches the pattern `a%b` but does not contain
the literal text `a%b`. -/
def exP10 : Product :=
  { id := 4, title := "aZZb", price := 3, category := "food", image := "j",
    description := "yy", stockQuantity := 1, createdAt := 8, updatedAt := 8 }

/-- A one-product store for the percent-wildcard instance. -/
def exDb10 : DB := { products := [exP10], orders := [], orderItems := [] }

/-- A search whose text contains the `%` wildcard. -/
def exF10 : ProductFilter :=
  { query := "a%b", category := "", limit := 0, offset := 0 }

/-- An unfiltered, unpaginated catalog request. -/
def exF7 : ProductFilter :=
  { query := "", category := "", limit := 0, offset := 0 }

/-- An order placed when product 1 cost 5 and was titled "Salmon Treats". -/
def exOrder5 : Order :=
  { id := 50, userId := 7, totalAmount := 5, status := "pending",
    items := [], createdAt := 3, updatedAt := 3 }

/-- Its single line item, carrying the snapshot price 5. -/
def exItem5 : OrderItem :=
  { id := 51, orderId := 50, productId := 1, quantity := 1, price := 5,
    product := none, createdAt := 3 }

/-- Product 1 as it looked at purchase time. -/
def exDb5old : DB :=
  { products := [exProdA], orders := [exOrder5], orderItems := [exItem5] }

/-- Product 1 after a later administrative update (new title, new price);
the order rows are untouched. -/
def exProdA5new : Product :=
  { exProdA with title := "Renamed Treats", price := 20 }

/-- The same store after the product row changed. -/
def exDb5new : DB :=
  { products := [exProdA5new], orders := [exOrder5], orderItems := [exItem5] }

/-- The item `getOrderItems exDb5new 50` returns: snapshot price 5, live
title. -/
def exJoined5 : OrderItem :=
  { exItem5 with product := some (joinedProduct exItem5 exProdA5new) }

/-! ### Lemmas about the two passes of `CreateOrder` -/

theorem calcTotal_eq (db : DB) :
    ∀ (items : List OrderItemRequest) (acc : ℚ),
      (∀ it ∈ items, (lookupPrice db it.productId).isSome) →
      calcTotal db items acc =
        .ok (acc + (items.map
          (fun it => (it.qty : ℚ) * priceAtD db it.productId)).sum) := by
  intro items
  induction items with
  | nil => intro acc _; simp [calcTotal]
  | cons it rest ih =>
    intro acc h
    rcases List.forall_mem_cons.mp h with ⟨h1, h2⟩
    cases hl : lookupPrice db it.productId with
    | none => rw [hl] at h1; simp at h1
    | some price =>
      have hpd : priceAtD db it.productId = price := by
        simp [priceAtD, hl]
      simp only [calcTotal, hl, ih (acc + price * (it.qty : ℚ)) h2,
        List.map_cons, List.sum_cons, hpd]
      congr 1
      ring

theorem calcTotal_ok_val (db : DB) :
    ∀ (items : List OrderItemRequest) (acc t : ℚ),
      calcTotal db items acc = .ok t →
      t = acc + (items.map
        (fun it => priceAtD db it.productId * (it.qty : ℚ))).sum := by
  intro items
  induction items with
  | nil => intro acc t h; simp [calcTotal] at h; simp [h.symm]
  | cons it rest ih =>
    intro acc t h
    cases hl : lookupPrice db it.productId with
    | none => rw [calcTotal, hl] at h; cases h
    | some price =>
      rw [calcTotal, hl] at h
      have hpd : priceAtD db it.productId = price := by
        simp [priceAtD, hl]
      have := ih (acc + price * (it.qty : ℚ)) t h
      rw [this]
      simp only [List.map_cons, List.sum_cons, hpd]
      ring

theorem calcTotal_missing (db : DB) :
    ∀ (items : List OrderItemRequest) (acc : ℚ),
      (∃ it ∈ items, lookupPrice db it.productId = none) →
      calcTotal db items acc = .error .errNoRows := by
  intro items
  induction items with
  | nil => intro acc h; simp at h
  | cons it rest ih =>
    intro acc h
    cases hl : lookupPrice db it.productId with
    | none => rw [calcTotal, hl]
    | some price =>
      rw [calcTotal, hl]
      rcases h with ⟨it0, hmem, hnone⟩
      rcases List.mem_cons.mp hmem with rfl | hmem'
      · rw [hl] at hnone; cases hnone
      · exact ih _ ⟨it0, hmem', hnone⟩

theorem insertItems_isSome_ok (db : DB) (oid now : Nat) :
    ∀ (items : List OrderItemRequest) (gen : Nat),
      (∀ it ∈ items, (lookupPrice db it.productId).isSome) →
      ∃ out, insertItems db oid now items gen = .ok out := by
  intro items
  induction items with
  | nil => intro gen _; exact ⟨([], gen), rfl⟩
  | cons it rest ih =>
    intro gen h
    rcases List.forall_mem_cons.mp h with ⟨h1, h2⟩
    cases hl : lookupPrice db it.productId with
    | none => rw [hl] at h1; simp at h1
    | some price =>
      obtain ⟨out, hout⟩ := ih (gen + 1) h2
      exact ⟨_, by rw [insertItems, hl, hout]⟩

theorem insertItems_ok_map (db : DB) (oid now : Nat) :
    ∀ (items : List OrderItemRequest) (gen : Nat)
      (out : List OrderItem × Nat),
      insertItems db oid now items gen = .ok out →
      out.1.map (fun oi => (oi.productId, oi.quantity, oi.price))
          = items.map (fun it => (it.productId, it.qty, priceAtD db it.productId))
        ∧ ∀ oi ∈ out.1, oi.orderId = oid ∧ oi.createdAt = now ∧ oi.product = none := by
  intro items
  induction items with
  | nil =>
    intro gen out h
    rw [insertItems] at h
    cases h
    simp
  | cons it rest ih =>
    intro gen out h
    cases hl : lookupPrice db it.productId with
    | none => rw [insertItems, hl] at h; cases h
    | some price =>
      rw [insertItems, hl] at h
      cases hrest : insertItems db oid now rest (gen + 1) with
      | error e => rw [hrest] at h; cases h
      | ok out' =>
        rw [hrest] at h
        cases h
        obtain ⟨hmap, hall⟩ := ih (gen + 1) out' hrest
        have hpd : priceAtD db it.productId = price := by
          simp [priceAtD, hl]
        constructor
        · simp only [List.map_cons, hmap, hpd]
        · intro oi hoi
          rcases List.mem_cons.mp hoi with rfl | hoi'
          · exact ⟨rfl, rfl, rfl⟩
          · exact hall oi hoi'

/-! ### Claims about the order transaction -/

/-- Claim C1: for a valid item list (every productId present, every
quantity ≥ 1) `createOrder` succeeds and the returned `total` is the sum
over the items of quantity times the product's unit price as read from the
store at call time (`st.db`).  The returned value is an expression in the
call-time store only, so no product price change applied to a later store
can alter it. -/
theorem claim1_createOrder_total (st : St) (now userID : Nat)
    (req : CreateOrderRequest)
    (h : ∀ it ∈ req.items,
      (lookupPrice st.db it.productId).isSome ∧ 1 ≤ it.qty) :
    ∃ st', createOrder st now userID req =
      .ok (st', { orderId := st.gen,
                  total := (req.items.map
                    (fun it => (it.qty : ℚ) * priceAtD st.db it.productId)).sum }) := by
  have hs : ∀ it ∈ req.items, (lookupPrice st.db it.productId).isSome :=
    fun it hit => (h it hit).1
  obtain ⟨⟨newItems, gen'⟩, hout⟩ :=
    insertItems_isSome_ok st.db st.gen now req.items (st.gen + 1) hs
  have hct := calcTotal_eq st.db req.items 0 hs
  refine ⟨{ db := { products := st.db.products,
                    orders := st.db.orders ++
                      [{ id := st.gen, userId := userID,
                         totalAmount := (req.items.map
                           (fun it => (it.qty : ℚ) * priceAtD st.db it.productId)).sum,
                         status := "pending", items := [], createdAt := now,
                         updatedAt := now }],
                    orderItems := st.db.orderItems ++ newItems },
            gen := gen' }, ?_⟩
  simp only [createOrder, hct, hout, zero_add]

/-- Witness for C1 at a concrete store: two products priced 10 and 5,
items [(1, qty 2), (2, qty 1)]. -/
theorem claim1_createOrder_total_witness :
    ∃ st', createOrder exSt 5 7 exReq =
      .ok (st', { orderId := 100,
                  total := (exReq.items.map
                    (fun it => (it.qty : ℚ) * priceAtD exSt.db it.productId)).sum }) :=
  claim1_createOrder_total exSt 5 7 exReq (by decide)

/-- Claim C2: on every successful `createOrder`, the store gains exactly one
order row and the inserted `order_items` rows carry the unit prices looked
up from the call-time store — the same store snapshot the step-2 total pass
read, so the persisted price is the step-2 observed price (the code's
second read runs in the same transaction against the same snapshot) — and
the persisted order's `total_amount` equals the sum over its persisted line
items of `price × quantity`. -/
theorem claim2_snapshot_invariant (st st' : St) (now userID : Nat)
    (req : CreateOrderRequest) (resp : CreateOrderResponse)
    (h : createOrder st now userID req = .ok (st', resp)) :
    ∃ ord newItems,
      st'.db.orders = st.db.orders ++ [ord] ∧
      st'.db.orderItems = st.db.orderItems ++ newItems ∧
      newItems.map OrderItem.price
        = req.items.map (fun it => priceAtD st.db it.productId) ∧
      ord.totalAmount
        = (newItems.map (fun oi => oi.price * (oi.quantity : ℚ))).sum := by
  rw [createOrder] at h
  cases hct : calcTotal st.db req.items 0 with
  | error e => rw [hct] at h; cases h
  | ok t =>
    rw [hct] at h
    cases hins : insertItems st.db st.gen now req.items (st.gen + 1) with
    | error e => rw [hins] at h; cases h
    | ok out =>
      rw [hins] at h
      cases h
      obtain ⟨hmap, _⟩ := insertItems_ok_map st.db st.gen now req.items (st.gen + 1) out hins
      refine ⟨_, out.1, rfl, rfl, ?_, ?_⟩
      · have := congrArg (List.map (fun v : Nat × Int × ℚ => v.2.2)) hmap
        simpa [List.map_map, Function.comp] using this
      · have hval := calcTotal_ok_val st.db req.items 0 t hct
        have hfinal : (out.1.map (fun oi => oi.price * (oi.quantity : ℚ))).sum
            = (req.items.map
                (fun it => priceAtD st.db it.productId * (it.qty : ℚ))).sum := by
          have := congrArg
            (fun l => (List.map (fun v : Nat × Int × ℚ => v.2.2 * (v.2.1 : ℚ)) l).sum) hmap
          simpa [List.map_map, Function.comp] using this
        simp only [hval, zero_add]
        exact hfinal.symm

/-- Witness for C2: the concrete order above persists items priced 10 and 5
and a total of 25 = 10·2 + 5·1. -/
theorem claim2_snapshot_invariant_witness :
    ∃ ord newItems,
      exStAfter.db.orders = exSt.db.orders ++ [ord] ∧
      exStAfter.db.orderItems = exSt.db.orderItems ++ newItems ∧
      newItems.map OrderItem.price
        = exReq.items.map (fun it => priceAtD exSt.db it.productId) ∧
      ord.totalAmount
        = (newItems.map (fun oi => oi.price * (oi.quantity : ℚ))).sum :=
  claim2_snapshot_invariant exSt exStAfter 5 7 exReq exResp (by
    simp [createOrder, calcTotal, insertItems, lookupPrice, priceAtD,
      exSt, exDb, exReq, exProdA, exProdB, exStAfter, exResp, exOrderRow]
    norm_num)

/-- Claim C3: when some requested productId is absent from the store, the
whole transaction aborts: the caller gets the failing lookup's
`sql.ErrNoRows` (the typed product-not-found signal of this code path, the
only error a missing product produces), the store is unchanged, and a
subsequent `getUserOrders` for the user reads exactly what it read before
the call. -/
theorem claim3_missing_product_aborts (st : St) (now userID : Nat)
    (req : CreateOrderRequest)
    (h : ∃ it ∈ req.items, lookupPrice st.db it.productId = none) :
    createOrderTx st now userID req = (st, .error .errNoRows) ∧
    getUserOrders (createOrderTx st now userID req).1.db userID
      = getUserOrders st.db userID := by
  have hc := calcTotal_missing st.db req.items 0 h
  constructor
  · simp [createOrderTx, createOrder, hc]
  · simp [createOrderTx, createOrder, hc]

/-- Witness for C3: ordering product 99, which the store does not hold,
fails with the no-rows error and leaves the store as it was. -/
theorem claim3_missing_product_aborts_witness :
    createOrderTx exSt 5 7 exReqBad = (exSt, .error .errNoRows) ∧
    getUserOrders (createOrderTx exSt 5 7 exReqBad).1.db 7
      = getUserOrders exSt.db 7 :=
  claim3_missing_product_aborts exSt 5 7 exReqBad (by decide)

/-- Claim C9: an empty item list is accepted: `createOrder` succeeds,
persists one order with `total_amount = 0` and `status = "pending"`, adds
no `order_items` row, and returns the generated order identifier with a
zero total. -/
theorem claim9_empty_items_accepted (st : St) (now userID : Nat) :
    createOrder st now userID { items := [] } =
      .ok ({ db := { products := st.db.products,
                     orders := st.db.orders ++
                       [{ id := st.gen, userId := userID, totalAmount := 0,
                          status := "pending", items := [], createdAt := now,
                          updatedAt := now }],
                     orderItems := st.db.orderItems },
             gen := st.gen + 1 },
           { orderId := st.gen, total := 0 }) := by
  simp [createOrder, calcTotal, insertItems]

/-! ### Pattern-matching lemmas: `ILIKE '%q%'` versus literal containment -/

theorem boolext {a b : Bool} (h : a = true ↔ b = true) : a = b := by
  cases a <;> cases b <;> simp_all

theorem likeM_percent (p : List Char) (s : List Char) :
    likeM ('%' :: p) s = (sufs s).any (fun t => likeM p t) := by
  rw [likeM.eq_def]
  simp

theorem likeM_plain_nil {c : Char} (hc : plainChar c) (p : List Char) :
    likeM (c :: p) [] = false := by
  rw [likeM.eq_def]
  dsimp only
  rw [if_neg hc.1, if_neg hc.2.1, if_neg hc.2.2]

theorem likeM_plain_cons {c : Char} (hc : plainChar c) (p : List Char)
    (d : Char) (s : List Char) :
    likeM (c :: p) (d :: s) = ((lower c == lower d) && likeM p s) := by
  rw [likeM.eq_def]
  dsimp only
  rw [if_neg hc.1, if_neg hc.2.1, if_neg hc.2.2]

theorem mem_sufs (s : List Char) : ∀ t, t ∈ sufs s ↔ ∃ u, s = u ++ t := by
  induction s with
  | nil => intro t; simp [sufs, eq_comm]
  | cons c s ih =>
    intro t
    rw [sufs, List.mem_cons, ih]
    constructor
    · rintro (rfl | ⟨u, rfl⟩)
      · exact ⟨[], rfl⟩
      · exact ⟨c :: u, rfl⟩
    · rintro ⟨u, hu⟩
      cases u with
      | nil => exact Or.inl (by simpa using hu.symm)
      | cons e u' =>
        rw [List.cons_append] at hu
        obtain ⟨rfl, hs⟩ := List.cons.inj hu
        exact Or.inr ⟨u', hs⟩

theorem percent_iff (p : List Char) (s : List Char) :
    likeM ('%' :: p) s = true ↔ ∃ u v, s = u ++ v ∧ likeM p v = true := by
  rw [likeM_percent, List.any_eq_true]
  constructor
  · rintro ⟨t, ht, hf⟩
    obtain ⟨u, rfl⟩ := (mem_sufs s t).mp ht
    exact ⟨u, t, rfl, hf⟩
  · rintro ⟨u, v, rfl, hv⟩
    exact ⟨v, (mem_sufs _ v).mpr ⟨u, rfl⟩, hv⟩

theorem isPrefCI_iff : ∀ (q s : List Char),
    isPrefCI q s = true ↔ ∃ m v, s = m ++ v ∧ m.map lower = q.map lower := by
  intro q
  induction q with
  | nil =>
    intro s
    constructor
    · intro _; exact ⟨[], s, rfl, rfl⟩
    · intro _; rfl
  | cons c q ih =>
    intro s
    cases s with
    | nil =>
      constructor
      · intro h; simp [isPrefCI] at h
      · rintro ⟨m, v, hs, hm⟩
        rcases List.append_eq_nil.mp hs.symm with ⟨rfl, rfl⟩
        simp at hm
    | cons d s' =>
      rw [isPrefCI, Bool.and_eq_true, beq_iff_eq, ih s']
      constructor
      · rintro ⟨hcd, m', v, rfl, hm'⟩
        exact ⟨d :: m', v, rfl, by simp [hm', hcd]⟩
      · rintro ⟨m, v, heq, hm⟩
        cases m with
        | nil => simp at hm
        | cons e m' =>
          obtain ⟨rfl, hs'⟩ := List.cons.inj heq
          rw [List.map_cons, List.map_cons] at hm
          obtain ⟨hde, hm'⟩ := List.cons.inj hm
          exact ⟨hde.symm, m', v, hs', hm'⟩

theorem containsCI_iff (q : List Char) : ∀ (s : List Char),
    containsCI q s = true ↔ ∃ u w, s = u ++ w ∧ isPrefCI q w = true := by
  intro s
  induction s with
  | nil =>
    rw [containsCI]
    constructor
    · intro h; exact ⟨[], [], rfl, h⟩
    · rintro ⟨u, w, hs, hw⟩
      rcases List.append_eq_nil.mp hs.symm with ⟨rfl, rfl⟩
      exact hw
  | cons d s' ih =>
    rw [containsCI, Bool.or_eq_true, ih]
    constructor
    · rintro (h | ⟨u, w, rfl, hw⟩)
      · exact ⟨[], d :: s', rfl, h⟩
      · exact ⟨d :: u, w, rfl, hw⟩
    · rintro ⟨u, w, heq, hw⟩
      cases u with
      | nil => exact Or.inl (by rw [List.nil_append] at heq; rw [← heq] at hw; exact hw)
      | cons e u' =>
        obtain ⟨rfl, hs'⟩ := List.cons.inj heq
        exact Or.inr ⟨u', w, hs', hw⟩

theorem plain_append : ∀ (q : List Char), (∀ c ∈ q, plainChar c) →
    ∀ (r s : List Char),
      likeM (q ++ r) s = true ↔
        ∃ m v, s = m ++ v ∧ m.map lower = q.map lower ∧ likeM r v = true := by
  intro q
  induction q with
  | nil =>
    intro _ r s
    simp only [List.nil_append, List.map_nil]
    constructor
    · intro h; exact ⟨[], s, rfl, rfl, h⟩
    · rintro ⟨m, v, rfl, hm, hv⟩
      rcases List.map_eq_nil_iff.mp hm with rfl
      exact hv
  | cons c q ih =>
    intro hq r s
    have hc : plainChar c := hq c (List.mem_cons_self c q)
    have hq' : ∀ e ∈ q, plainChar e := fun e he => hq e (List.mem_cons_of_mem c he)
    cases s with
    | nil =>
      rw [List.cons_append, likeM_plain_nil hc]
      constructor
      · intro h; simp at h
      · rintro ⟨m, v, hs, hm, hv⟩
        rcases List.append_eq_nil.mp hs.symm with ⟨rfl, rfl⟩
        simp at hm
    | cons d s' =>
      rw [List.cons_append, likeM_plain_cons hc, Bool.and_eq_true, beq_iff_eq,
        ih hq' r s']
      constructor
      · rintro ⟨hcd, m', v, rfl, hm', hv⟩
        exact ⟨d :: m', v, rfl, by simp [hm', hcd], hv⟩
      · rintro ⟨m, v, heq, hm, hv⟩
        cases m with
        | nil => simp at hm
        | cons e m' =>
          obtain ⟨rfl, hs'⟩ := List.cons.inj heq
          rw [List.map_cons, List.map_cons] at hm
          obtain ⟨hde, hm'⟩ := List.cons.inj hm
          exact ⟨hde.symm, m', v, hs', hm', hv⟩

theorem likeM_wrap (q : List Char) (hq : ∀ c ∈ q, plainChar c)
    (s : List Char) :
    likeM ('%' :: (q ++ ['%'])) s = containsCI q s := by
  apply boolext
  rw [percent_iff, containsCI_iff]
  constructor
  · rintro ⟨u, v, rfl, hv⟩
    rw [plain_append q hq ['%'] v] at hv
    obtain ⟨m, w, rfl, hm, _⟩ := hv
    refine ⟨u, m ++ w, rfl, ?_⟩
    rw [isPrefCI_iff]
    exact ⟨m, w, rfl, hm⟩
  · rintro ⟨u, w, rfl, hw⟩
    rw [isPrefCI_iff] at hw
    obtain ⟨m, v, rfl, hm⟩ := hw
    refine ⟨u, m ++ v, rfl, ?_⟩
    rw [plain_append q hq ['%'] (m ++ v)]
    refine ⟨m, v, rfl, hm, ?_⟩
    rw [percent_iff]
    exact ⟨v, [], (List.append_nil v).symm, by simp [likeM]⟩

theorem ilike_wrap (q s : String) (hq : ∀ c ∈ q.data, plainChar c) :
    ilike s ("%" ++ q ++ "%") = containsCI q.data s.data := by
  have hdata : ("%" ++ q ++ "%").data = '%' :: (q.data ++ ['%']) := by
    simp [String.data_append]
  rw [ilike, hdata, likeM_wrap q.data hq s.data]

theorem matchesWhere_iff (f : ProductFilter)
    (hq : ∀ c ∈ f.query.data, plainChar c) (p : Product) :
    matchesWhere f p = true ↔
      (f.query = "" ∨ containsCI f.query.data p.title.data = true
        ∨ containsCI f.query.data p.description.data = true) ∧
      (f.category = "" ∨ p.category = f.category) := by
  rw [matchesWhere, Bool.and_eq_true, Bool.or_eq_true, Bool.or_eq_true,
    Bool.or_eq_true, beq_iff_eq, beq_iff_eq, beq_iff_eq,
    ilike_wrap f.query p.title hq, ilike_wrap f.query p.description hq]

theorem pairwise_mergeSort_key {α : Type} (key : α → Nat) (l : List α) :
    (l.mergeSort (fun a b => decide (key b ≤ key a))).Pairwise
      (fun a b => key b ≤ key a) := by
  have h := @List.sorted_mergeSort α (fun a b : α => decide (key b ≤ key a))
    (fun a b c h1 h2 => by
      rw [decide_eq_true_eq] at *
      omega)
    (fun a b => by
      rcases Nat.le_total (key b) (key a) with h | h <;> simp [h]) l
  exact h.imp (fun h' => of_decide_eq_true h')

/-! ### Claims about the catalog query service -/

/-- Claim C6, amended: with pagination absent, `listProducts` returns
exactly the products matching the `ILIKE` pattern built from `searchText`;
when `searchText` is free of the pattern metacharacters `%`, `_` and the
escape `\`, that coincides with case-insensitive literal substring
containment in title or description; a present category restricts to exact
equality; the filters compose with AND.  (As stated over all inputs the
claim fails: `%` and `_` in `searchText` act as wildcards, see the
counterexample.) -/
theorem claim6_search_filters (db : DB) (f : ProductFilter)
    (hq : ∀ c ∈ f.query.data, plainChar c)
    (hl : f.limit ≤ 0) (ho : f.offset ≤ 0) (p : Product) :
    p ∈ getProducts db f ↔
      p ∈ db.products ∧
      (f.query = "" ∨ containsCI f.query.data p.title.data = true
        ∨ containsCI f.query.data p.description.data = true) ∧
      (f.category = "" ∨ p.category = f.category) := by
  have hperm : (getProducts db f).Perm (db.products.filter (matchesWhere f)) := by
    unfold getProducts
    simp only [if_neg (by omega : ¬ f.offset > 0), if_neg (by omega : ¬ f.limit > 0)]
    exact List.mergeSort_perm _ _
  rw [hperm.mem_iff, List.mem_filter, matchesWhere_iff f hq p]

/-- Witness for the amended C6: searching "wand" in the two-product store
finds the Feather Wand by case-insensitive containment. -/
theorem claim6_search_filters_witness :
    exProdB ∈ getProducts exDb { query := "wand", category := "", limit := 0, offset := 0 } ↔
      exProdB ∈ exDb.products ∧
      ("wand" = "" ∨ containsCI "wand".data exProdB.title.data = true
        ∨ containsCI "wand".data exProdB.description.data = true) ∧
      (("" : String) = "" ∨ exProdB.category = "") :=
  claim6_search_filters exDb
    { query := "wand", category := "", limit := 0, offset := 0 }
    (by decide) (by decide) (by decide) exProdB

/-- Counterexample to C6 as stated: the search text `a_b` returns the
product titled `aXb`, whose title and description do not contain the
literal text `a_b` — the `_` is treated as an `ILIKE` wildcard, not as a
character of the search text. -/
theorem claim6_wildcard_counterexample :
    getProducts exDb6 exF6 = [exP6] ∧
    containsCI exF6.query.data exP6.title.data = false ∧
    containsCI exF6.query.data exP6.description.data = false := by
  refine ⟨?_, by decide, by decide⟩
  have hf : exDb6.products.filter (matchesWhere exF6) = [exP6] := by decide
  simp only [getProducts, hf, List.mergeSort_singleton]
  decide

/-- Claim C7: `listProducts` output is ordered most recently created
first, and nonpositive limit and offset are treated as absent: the result
is then all matching products. -/
theorem claim7_order_pagination (db : DB) (f : ProductFilter) :
    (getProducts db f).Pairwise (fun a b => b.createdAt ≤ a.createdAt) ∧
    (f.limit ≤ 0 → f.offset ≤ 0 →
      (getProducts db f).Perm (db.products.filter (matchesWhere f))) := by
  constructor
  · have hs := pairwise_mergeSort_key Product.createdAt
      (db.products.filter (matchesWhere f))
    unfold getProducts
    by_cases h1 : f.offset > 0 <;> by_cases h2 : f.limit > 0 <;>
      simp only [if_pos, if_neg, h1, h2, if_true, if_false]
    · exact List.Pairwise.sublist
        ((List.take_sublist _ _).trans (List.drop_sublist _ _)) hs
    · exact List.Pairwise.sublist (List.drop_sublist _ _) hs
    · exact List.Pairwise.sublist (List.take_sublist _ _) hs
    · exact hs
  · intro hl ho
    unfold getProducts
    simp only [if_neg (by omega : ¬ f.offset > 0), if_neg (by omega : ¬ f.limit > 0)]
    exact List.mergeSort_perm _ _

/-- Witness for C7 at the two-product store with no filters and no
pagination. -/
theorem claim7_order_pagination_witness :
    (getProducts exDb exF7).Pairwise (fun a b => b.createdAt ≤ a.createdAt) ∧
    (getProducts exDb exF7).Perm (exDb.products.filter (matchesWhere exF7)) :=
  ⟨(claim7_order_pagination exDb exF7).1,
   (claim7_order_pagination exDb exF7).2 (by decide) (by decide)⟩

/-- Claim C8, amended: `getProduct` answers `"product not found"` exactly
when the product is missing or the store-layer query fails; a store-layer
failure is collapsed into the same "not found" error, so it is not
distinguishable from a missing product (the claim's "never as NotFound"
direction fails, see the counterexample). -/
theorem claim8_notfound_collapses (db : DB) (so : Bool) (id : Nat) :
    getProduct db so id = .error "product not found" ↔
      so = false ∨ db.products.find? (fun p => p.id == id) = none := by
  unfold getProduct queryProductRow
  cases so with
  | false => simp
  | true => cases h : db.products.find? (fun p => p.id == id) <;> simp [h]

/-- Counterexample to C8 as stated: product 1 exists in the store, yet a
store-layer failure makes `getProduct` report exactly the NotFound error. -/
theorem claim8_store_failure_counterexample :
    (exDb.products.find? (fun p => p.id == 1)).isSome = true ∧
    getProduct exDb false 1 = .error "product not found" :=
  ⟨by decide, rfl⟩

/-- Claim C10: a search text containing `%` (here `a%b`) is interpolated
unescaped into the `ILIKE` pattern, so `listProducts` returns a product
(title `aZZb`) whose title and description do not contain the literal
search text. -/
theorem claim10_unescaped_wildcards :
    getProducts exDb10 exF10 = [exP10] ∧
    containsCI exF10.query.data exP10.title.data = false ∧
    containsCI exF10.query.data exP10.description.data = false := by
  refine ⟨?_, by decide, by decide⟩
  have hf : exDb10.products.filter (matchesWhere exF10) = [exP10] := by decide
  simp only [getProducts, hf, List.mergeSort_singleton]
  decide

/-! ### Claim about `getUserOrders` -/

/-- Claim C5, amended: `getUserOrders` returns exactly the user's orders —
the output is a permutation of the user's `orders` rows, each with its
items attached — sorted most recent first; the returned items are exactly
the order's stored `order_items` rows joined against the **live** product
row (one output item per stored row whose product exists): the `price`
carried (both on the item and on the embedded product) is the snapshot
stored at purchase, but `title`, `category`, `image` and `description`
come from the current `products` row, so those fields do change when the
product row later changes (the claim's snapshotting of title/image/category
fails, see the counterexample). -/
theorem claim5_user_orders (db : DB) (uid : Nat) :
    (getUserOrders db uid).Pairwise (fun a b => b.createdAt ≤ a.createdAt) ∧
    (∀ o ∈ getUserOrders db uid, o.userId = uid ∧ o.items = getOrderItems db o.id) ∧
    (getUserOrders db uid).Perm
      ((db.orders.filter (fun o => o.userId == uid)).map
        (fun o => { o with items := getOrderItems db o.id })) ∧
    (∀ oid : Nat, ∀ it ∈ getOrderItems db oid, ∃ oi ∈ db.orderItems,
      ∃ p, db.products.find? (fun q2 => q2.id == oi.productId) = some p ∧
        it = { oi with product := some (joinedProduct oi p) }) ∧
    (∀ oid : Nat, ∀ oi ∈ db.orderItems, oi.orderId = oid →
      ∀ p, db.products.find? (fun q2 => q2.id == oi.productId) = some p →
        { oi with product := some (joinedProduct oi p) } ∈ getOrderItems db oid) := by
  refine ⟨?_, ?_, ?_, ?_, ?_⟩
  · unfold getUserOrders
    rw [List.pairwise_map]
    exact pairwise_mergeSort_key Order.createdAt _
  · intro o ho
    unfold getUserOrders at ho
    obtain ⟨o', ho', rfl⟩ := List.mem_map.mp ho
    have ho'' : o' ∈ db.orders.filter (fun o2 => o2.userId == uid) :=
      (List.mergeSort_perm _ _).subset ho'
    have huid : o'.userId = uid := by
      have := (List.mem_filter.mp ho'').2
      simpa using this
    exact ⟨huid, rfl⟩
  · unfold getUserOrders
    exact (List.mergeSort_perm _ _).map _
  · intro oid it hit
    unfold getOrderItems at hit
    obtain ⟨oi, hoi, heq⟩ := List.mem_filterMap.mp hit
    obtain ⟨p, hp, hpe⟩ := Option.map_eq_some'.mp heq
    exact ⟨oi, (List.mem_filter.mp hoi).1, p, hp, hpe.symm⟩
  · intro oid oi hoi horder p hp
    unfold getOrderItems
    refine List.mem_filterMap.mpr ⟨oi, List.mem_filter.mpr ⟨hoi, by simp [horder]⟩, ?_⟩
    rw [hp]
    rfl

/-- Witness for the amended C5: in the store where the product row was
updated after purchase, the returned orders are sorted and are a
permutation of the user's order rows with items attached; the stored item
row produces exactly the joined item (snapshot price 5, live title), which
the join both emits (completeness) and accounts for (soundness). -/
theorem claim5_user_orders_witness :
    (getUserOrders exDb5new 7).Pairwise (fun a b => b.createdAt ≤ a.createdAt) ∧
    (getUserOrders exDb5new 7).Perm
      ((exDb5new.orders.filter (fun o => o.userId == 7)).map
        (fun o => { o with items := getOrderItems exDb5new o.id })) ∧
    (∃ oi ∈ exDb5new.orderItems,
      ∃ p, exDb5new.products.find? (fun q2 => q2.id == oi.productId) = some p ∧
        exJoined5 = { oi with product := some (joinedProduct oi p) }) ∧
    exJoined5 ∈ getOrderItems exDb5new 50 :=
  ⟨(claim5_user_orders exDb5new 7).1,
   (claim5_user_orders exDb5new 7).2.2.1,
   (claim5_user_orders exDb5new 7).2.2.2.1 50 exJoined5 (by decide),
   (claim5_user_orders exDb5new 7).2.2.2.2 50 exItem5 (by decide) rfl
     exProdA5new (by decide)⟩

/-- Counterexample to C5 as stated: two stores with identical `orders` and
`order_items` rows but a product row whose title changed after the
purchase; `getUserOrders` reports the old title in one and the new title in
the other, so the title shown is read from the live product row, not from
a purchase-time snapshot. -/
theorem claim5_live_fields_counterexample :
    exDb5old.orders = exDb5new.orders ∧
    exDb5old.orderItems = exDb5new.orderItems ∧
    (getUserOrders exDb5old 7).map
        (fun o => o.items.map (fun it => it.product.map Product.title))
      = [[some "Salmon Treats"]] ∧
    (getUserOrders exDb5new 7).map
        (fun o => o.items.map (fun it => it.product.map Product.title))
      = [[some "Renamed Treats"]] := by
  refine ⟨rfl, rfl, ?_, ?_⟩
  · have hf : exDb5old.orders.filter (fun o => o.userId == 7) = [exOrder5] := by decide
    simp only [getUserOrders, hf, List.mergeSort_singleton]
    decide
  · have hf : exDb5new.orders.filter (fun o => o.userId == 7) = [exOrder5] := by decide
    simp only [getUserOrders, hf, List.mergeSort_singleton]
    decide

end CatMart
